import Mathlib

/-!
Verification development for the photo-product-app repository.

The embedding below translates the pure content of the app's mock services
(src/services, given as unnamed/part_001) and its client state containers
(src/contexts/CartContext.tsx, FavoritesContext.tsx, NotificationContext.tsx)
into Lean. Conventions of the embedding:

* AsyncStorage is a key-value store. JSON.stringify is injective on JSON
  trees and JSON.parse recovers the tree from the string, so the stored
  string is identified with its JSON tree (the JValue type below).
* Date fields are modelled by their serialized string form: the loaders
  call JSON.parse without any reviver, so every Date that passes through
  storage is a plain string at runtime, and no code computes with the
  date fields. Fresh dates produced by new Date() become explicit string
  parameters of the operations that create them.
* Monetary prices and quantities are JavaScript numbers; no claim computes
  with prices, and quantities are compared with 0, so both are modelled
  as integers.
* Asynchronous functions only await fixed timers before running pure
  logic on their state, so they are modelled as pure state transformers.
* The faker generators used by the services become explicit parameters
  (fresh identifiers, names, dates), except faker.string.alphanumeric,
  which is modelled concretely below so that the shape of generated
  tokens can be proved.
-/

/-- JSON trees, the image of JSON.parse on the strings this app stores. -/
inductive JValue where
  | jnull : JValue
  | jbool : Bool → JValue
  | jnum : Int → JValue
  | jstr : String → JValue
  | jarr : List JValue → JValue
  | jobj : List (String × JValue) → JValue

/-- Model of the AsyncStorage key-value store, with stored strings
identified with their JSON trees. -/
def Storage : Type := String → Option JValue

/-- Fresh storage with no keys set. -/
def Storage.empty : Storage := fun _ => none

/-- Model of AsyncStorage.setItem. -/
def setItem (st : Storage) (key : String) (v : JValue) : Storage :=
  fun k => if k = key then some v else st k

/-- Model of AsyncStorage.getItem. -/
def getItem (st : Storage) (key : String) : Option JValue := st key

/-- Product record from src/types/index.ts. -/
structure Product where
  id : String
  name : String
  description : String
  price : Int
  image : String
  category : String
  inStock : Bool
  createdAt : String
  updatedAt : String
deriving Repr, DecidableEq

/-- User record from src/types/index.ts; phone and profileImage are
optional fields. -/
structure User where
  id : String
  email : String
  name : String
  phone : Option String
  profileImage : Option String
  createdAt : String
  updatedAt : String
deriving Repr, DecidableEq

/-- Cart entry from CartContext.tsx: a product plus a quantity. -/
structure CartItem where
  product : Product
  quantity : Int
deriving Repr, DecidableEq

/-- Severity tag of a notification, from src/types/index.ts. -/
inductive NotificationType where
  | info | success | warning | error
deriving Repr, DecidableEq

/-- Notification record from src/types/index.ts. -/
structure NotificationData where
  id : String
  title : String
  message : String
  type : NotificationType
  read : Bool
  createdAt : String
deriving Repr, DecidableEq

/-- Paginated response envelope from src/types/index.ts. -/
structure PaginatedResponse (α : Type) where
  data : List α
  page : Nat
  limit : Nat
  total : Nat
  totalPages : Nat
deriving Repr, DecidableEq

/-! JSON encoding of the persisted records, following JSON.stringify on
the corresponding JavaScript objects (field order is insertion order). -/

/-- JSON.stringify of a Product. -/
def encodeProduct (p : Product) : JValue :=
  .jobj [("id", .jstr p.id), ("name", .jstr p.name),
         ("description", .jstr p.description), ("price", .jnum p.price),
         ("image", .jstr p.image), ("category", .jstr p.category),
         ("inStock", .jbool p.inStock), ("createdAt", .jstr p.createdAt),
         ("updatedAt", .jstr p.updatedAt)]

/-- JSON.stringify of a CartItem. -/
def encodeCartItem (item : CartItem) : JValue :=
  .jobj [("product", encodeProduct item.product), ("quantity", .jnum item.quantity)]

/-- String form of a notification severity tag. -/
def encodeNotificationType : NotificationType → String
  | .info => "info"
  | .success => "success"
  | .warning => "warning"
  | .error => "error"

/-- JSON.stringify of a NotificationData. -/
def encodeNotification (n : NotificationData) : JValue :=
  .jobj [("id", .jstr n.id), ("title", .jstr n.title),
         ("message", .jstr n.message), ("type", .jstr (encodeNotificationType n.type)),
         ("read", .jbool n.read), ("createdAt", .jstr n.createdAt)]

/-- JSON.stringify of a list of cart items. -/
def encodeCartItems (l : List CartItem) : JValue := .jarr (l.map encodeCartItem)

/-- JSON.stringify of a list of products. -/
def encodeProducts (l : List Product) : JValue := .jarr (l.map encodeProduct)

/-- JSON.stringify of a list of notifications. -/
def encodeNotifications (l : List NotificationData) : JValue :=
  .jarr (l.map encodeNotification)

/-! Reading the parsed JSON tree back into the typed records, mirroring
how the loaders use the result of JSON.parse: fields are accessed by
name on the parsed object. -/

/-- Field access on a parsed JSON object. -/
def jlookup (fields : List (String × JValue)) (key : String) : Option JValue :=
  (fields.find? (fun f => f.1 == key)).map (fun f => f.2)

/-- Reading a parsed JSON value as a string. -/
def asStr : JValue → Option String
  | .jstr s => some s
  | _ => none

/-- Reading a parsed JSON value as a number. -/
def asNum : JValue → Option Int
  | .jnum n => some n
  | _ => none

/-- Reading a parsed JSON value as a boolean. -/
def asBool : JValue → Option Bool
  | .jbool b => some b
  | _ => none

/-- Reading a parsed JSON value back as a Product. -/
def decodeProduct : JValue → Option Product
  | .jobj fields => do
      let id ← jlookup fields "id" >>= asStr
      let name ← jlookup fields "name" >>= asStr
      let description ← jlookup fields "description" >>= asStr
      let price ← jlookup fields "price" >>= asNum
      let image ← jlookup fields "image" >>= asStr
      let category ← jlookup fields "category" >>= asStr
      let inStock ← jlookup fields "inStock" >>= asBool
      let createdAt ← jlookup fields "createdAt" >>= asStr
      let updatedAt ← jlookup fields "updatedAt" >>= asStr
      pure ⟨id, name, description, price, image, category, inStock, createdAt, updatedAt⟩
  | _ => none

/-- Reading a parsed JSON value back as a CartItem. -/
def decodeCartItem : JValue → Option CartItem
  | .jobj fields => do
      let product ← jlookup fields "product" >>= decodeProduct
      let quantity ← jlookup fields "quantity" >>= asNum
      pure ⟨product, quantity⟩
  | _ => none

/-- Reading a severity tag back from its string form. -/
def decodeNotificationType (s : String) : Option NotificationType :=
  if s = "info" then some .info
  else if s = "success" then some .success
  else if s = "warning" then some .warning
  else if s = "error" then some .error
  else none

/-- Reading a parsed JSON value back as a NotificationData. -/
def decodeNotification : JValue → Option NotificationData
  | .jobj fields => do
      let id ← jlookup fields "id" >>= asStr
      let title ← jlookup fields "title" >>= asStr
      let message ← jlookup fields "message" >>= asStr
      let ty ← (jlookup fields "type" >>= asStr).bind decodeNotificationType
      let readFlag ← jlookup fields "read" >>= asBool
      let createdAt ← jlookup fields "createdAt" >>= asStr
      pure ⟨id, title, message, ty, readFlag, createdAt⟩
  | _ => none

/-- Elementwise reading of a parsed JSON array. -/
def decodeListWith (dec : JValue → Option α) : List JValue → Option (List α)
  | [] => some []
  | v :: vs => do
      let x ← dec v
      let xs ← decodeListWith dec vs
      pure (x :: xs)

/-- Reading a parsed JSON value back as a list of cart items. -/
def decodeCartItems : JValue → Option (List CartItem)
  | .jarr vs => decodeListWith decodeCartItem vs
  | _ => none

/-- Reading a parsed JSON value back as a list of products. -/
def decodeProducts : JValue → Option (List Product)
  | .jarr vs => decodeListWith decodeProduct vs
  | _ => none

/-- Reading a parsed JSON value back as a list of notifications. -/
def decodeNotifications : JValue → Option (List NotificationData)
  | .jarr vs => decodeListWith decodeNotification vs
  | _ => none

/-! Pagination and search primitives used by the product services. -/

/-- Model of Array.prototype.slice for 0 <= startIdx <= endIdx: the
elements from startIdx up to (exclusive) endIdx, clamped to the array. -/
def jsSlice (l : List α) (startIdx endIdx : Nat) : List α :=
  (l.drop startIdx).take (endIdx - startIdx)

/-- Model of Math.ceil (a / b) on natural operands, as computed by the
services for totalPages. -/
def mathCeilDiv (a b : Nat) : Nat := a ⌈/⌉ b

/-- Decision of JavaScript's needle-occurs-in-haystack scan over
character lists: some suffix of the haystack starts with the needle. -/
def occursIn (needle : List Char) : List Char → Bool
  | [] => needle.isEmpty
  | c :: rest => needle.isPrefixOf (c :: rest) || occursIn needle rest

/-- Model of String.prototype.includes. -/
def jsIncludes (s sub : String) : Bool := occursIn sub.toList s.toList

/-- Filter predicate of ProductService.searchProducts: the lowercased
name, description or category contains the lowercased query. -/
def matchesQuery (query : String) (p : Product) : Bool :=
  jsIncludes p.name.toLower query.toLower ||
  jsIncludes p.description.toLower query.toLower ||
  jsIncludes p.category.toLower query.toLower

/-- ProductService.getProducts over an explicit products list. -/
def ProductService.getProducts (products : List Product)
    (page : Nat) (limit : Nat) : PaginatedResponse Product :=
  let startIndex := (page - 1) * limit
  let endIndex := startIndex + limit
  { data := jsSlice products startIndex endIndex
    page := page
    limit := limit
    total := products.length
    totalPages := mathCeilDiv products.length limit }

/-- ProductService.getProduct. -/
def ProductService.getProduct (products : List Product) (id : String) :
    Option Product :=
  products.find? (fun product => product.id == id)

/-- Input of ProductService.addProduct: a Product without id and
timestamps. -/
structure ProductInput where
  name : String
  description : String
  price : Int
  image : String
  category : String
  inStock : Bool
deriving Repr, DecidableEq

/-- ProductService.addProduct: the fresh uuid and the creation date
produced by faker/new Date() are explicit parameters; the new product is
unshifted onto the list. Returns the new product and the new list. -/
def ProductService.addProduct (products : List Product)
    (productData : ProductInput) (freshId now : String) :
    Product × List Product :=
  let newProduct : Product :=
    { id := freshId
      name := productData.name
      description := productData.description
      price := productData.price
      image := productData.image
      category := productData.category
      inStock := productData.inStock
      createdAt := now
      updatedAt := now }
  (newProduct, newProduct :: products)

/-- ProductService.searchProducts over an explicit products list. -/
def ProductService.searchProducts (products : List Product) (query : String)
    (page : Nat) (limit : Nat) : PaginatedResponse Product :=
  let filteredProducts := products.filter (matchesQuery query)
  let startIndex := (page - 1) * limit
  let endIndex := startIndex + limit
  { data := jsSlice filteredProducts startIndex endIndex
    page := page
    limit := limit
    total := filteredProducts.length
    totalPages := mathCeilDiv filteredProducts.length limit }

/-- MyProductsService.getMyProductsPaginated over the stored list. -/
def MyProductsService.getMyProductsPaginated (allProducts : List Product)
    (page : Nat) (limit : Nat) : PaginatedResponse Product :=
  let startIndex := (page - 1) * limit
  let endIndex := startIndex + limit
  { data := jsSlice allProducts startIndex endIndex
    page := page
    limit := limit
    total := allProducts.length
    totalPages := mathCeilDiv allProducts.length limit }

/-! Model of the faker token generator used by AuthService. -/

/-- Alphabet of faker.string.alphanumeric. -/
def alphanumericAlphabet : List Char :=
  "abcdefghijklmnopqrstuvwxyzABCDEFGHIJKLMNOPQRSTUVWXYZ0123456789".toList

/-- Model of faker.string.alphanumeric count: a string of count
characters drawn from the alphanumeric alphabet, driven by a seed. -/
def fakerAlphanumeric (seed : Nat) (count : Nat) : String :=
  String.mk ((List.range count).map
    (fun i => alphanumericAlphabet.getD ((seed + i) % 62) 'a'))

/-! AuthService, over an explicit users list. Each operation returns its
result together with the users list after the call. -/

/-- Fresh faker data consumed by AuthService.login when it creates a
user for an unknown email. -/
structure FreshLoginData where
  id : String
  name : String
  phone : String
  profileImage : String
  now : String
deriving Repr, DecidableEq

/-- AuthService.login: accepts any email/password; returns the existing
user with that email, or creates and appends one, plus a fresh token. -/
def AuthService.login (users : List User) (email : String)
    (_password : String) (fresh : FreshLoginData) (seed : Nat) :
    (User × String) × List User :=
  match users.find? (fun u => u.email == email) with
  | some user => ((user, fakerAlphanumeric seed 64), users)
  | none =>
      let user : User :=
        { id := fresh.id
          email := email
          name := fresh.name
          phone := some fresh.phone
          profileImage := some fresh.profileImage
          createdAt := fresh.now
          updatedAt := fresh.now }
      ((user, fakerAlphanumeric seed 64), users ++ [user])

/-- Input of AuthService.register. -/
structure RegisterData where
  name : String
  email : String
  password : String
deriving Repr, DecidableEq

/-- Fresh faker data consumed by AuthService.register. -/
structure FreshRegisterData where
  id : String
  phone : String
  now : String
deriving Repr, DecidableEq

/-- AuthService.register: throws when the email is already registered,
otherwise appends a new user (no profileImage) and returns it with a
fresh token. -/
def AuthService.register (users : List User) (userData : RegisterData)
    (fresh : FreshRegisterData) (seed : Nat) :
    Except String (User × String) × List User :=
  match users.find? (fun u => u.email == userData.email) with
  | some _ => (Except.error "Email já cadastrado", users)
  | none =>
      let newUser : User :=
        { id := fresh.id
          email := userData.email
          name := userData.name
          phone := some fresh.phone
          profileImage := none
          createdAt := fresh.now
          updatedAt := fresh.now }
      (Except.ok (newUser, fakerAlphanumeric seed 64), users ++ [newUser])

/-- Update of the first user with the given email: its updatedAt field
is set to now, everything else kept. This is the effect of the in-place
mutation done by AuthService.resetPassword on the array's first match. -/
def setUpdatedAtFirst (email now : String) : List User → List User
  | [] => []
  | u :: rest =>
      if u.email == email then { u with updatedAt := now } :: rest
      else u :: setUpdatedAtFirst email now rest

/-- AuthService.resetPassword: any OTP and new password are accepted;
returns true and touches the matched user's updatedAt when a user with
the email exists, otherwise returns false and changes nothing. -/
def AuthService.resetPassword (users : List User) (email : String)
    (_otp _newPassword : String) (now : String) : Bool × List User :=
  match users.find? (fun u => u.email == email) with
  | some _ => (true, setUpdatedAtFirst email now users)
  | none => (false, users)

/-! Cart container (CartContext.tsx). The component state is the cart
item list plus the storage it mirrors itself to; every mutation writes
the new list back under the key cart. -/

/-- State of the cart container. -/
structure CartState where
  cartItems : List CartItem
  storage : Storage

/-- Function saveCart of CartContext.tsx: persists the list under the
key cart. -/
def saveCart (storage : Storage) (newCartItems : List CartItem) : Storage :=
  setItem storage "cart" (encodeCartItems newCartItems)

/-- Quantity bump performed by addToCart when findIndex succeeds: the
first item whose product id matches gets its quantity increased. -/
def bumpQuantityAtFirst (productId : String) (quantity : Int) :
    List CartItem → List CartItem
  | [] => []
  | item :: rest =>
      if item.product.id == productId then
        { item with quantity := item.quantity + quantity } :: rest
      else item :: bumpQuantityAtFirst productId quantity rest

/-- Function addToCart of CartContext.tsx. The findIndex existing-item
test is rendered as an any test; the in-place update at the found index
is the first-match quantity bump. -/
def addToCart (s : CartState) (product : Product) (quantity : Int) :
    CartState :=
  let newCartItems :=
    if s.cartItems.any (fun item => item.product.id == product.id) then
      bumpQuantityAtFirst product.id quantity s.cartItems
    else
      s.cartItems ++ [{ product := product, quantity := quantity }]
  { cartItems := newCartItems, storage := saveCart s.storage newCartItems }

/-- Function removeFromCart of CartContext.tsx. -/
def removeFromCart (s : CartState) (productId : String) : CartState :=
  let newCartItems := s.cartItems.filter (fun item => item.product.id != productId)
  { cartItems := newCartItems, storage := saveCart s.storage newCartItems }

/-- Function updateQuantity of CartContext.tsx. -/
def updateQuantity (s : CartState) (productId : String) (quantity : Int) :
    CartState :=
  if quantity ≤ 0 then removeFromCart s productId
  else
    let newCartItems := s.cartItems.map (fun item =>
      if item.product.id == productId then { item with quantity := quantity }
      else item)
    { cartItems := newCartItems, storage := saveCart s.storage newCartItems }

/-- Function clearCart of CartContext.tsx. -/
def clearCart (s : CartState) : CartState :=
  { cartItems := [], storage := saveCart s.storage [] }

/-- Function loadCart of CartContext.tsx: reads and parses the stored
list; when the key is absent or the parse does not produce a cart list,
the state keeps its initial empty value. -/
def loadCart (storage : Storage) : List CartItem :=
  match getItem storage "cart" with
  | some v => (decodeCartItems v).getD []
  | none => []

/-! Favorites container (FavoritesContext.tsx). -/

/-- State of the favorites container. -/
structure FavoritesState where
  favorites : List Product
  storage : Storage

/-- Function saveFavorites of FavoritesContext.tsx. -/
def saveFavorites (storage : Storage) (newFavorites : List Product) : Storage :=
  setItem storage "favorites" (encodeProducts newFavorites)

/-- Function addToFavorites of FavoritesContext.tsx: appends the product
unconditionally. -/
def addToFavorites (s : FavoritesState) (product : Product) : FavoritesState :=
  let newFavorites := s.favorites ++ [product]
  { favorites := newFavorites, storage := saveFavorites s.storage newFavorites }

/-- Function removeFromFavorites of FavoritesContext.tsx. -/
def removeFromFavorites (s : FavoritesState) (productId : String) :
    FavoritesState :=
  let newFavorites := s.favorites.filter (fun item => item.id != productId)
  { favorites := newFavorites, storage := saveFavorites s.storage newFavorites }

/-- Function isFavorite of FavoritesContext.tsx. -/
def isFavorite (s : FavoritesState) (productId : String) : Bool :=
  s.favorites.any (fun item => item.id == productId)

/-- Function toggleFavorite of FavoritesContext.tsx. -/
def toggleFavorite (s : FavoritesState) (product : Product) : FavoritesState :=
  if isFavorite s product.id then removeFromFavorites s product.id
  else addToFavorites s product

/-- Function loadFavorites of FavoritesContext.tsx. -/
def loadFavorites (storage : Storage) : List Product :=
  match getItem storage "favorites" with
  | some v => (decodeProducts v).getD []
  | none => []

/-! Notification container (NotificationContext.tsx). -/

/-- State of the notification container: the list, the derived unread
counter, and the mirrored storage. -/
structure NotificationState where
  notifications : List NotificationData
  unreadCount : Nat
  storage : Storage

/-- Input of addNotification: a notification without id, read flag and
creation date. -/
structure NotificationInput where
  title : String
  message : String
  type : NotificationType
deriving Repr, DecidableEq

/-- Function saveNotifications of NotificationContext.tsx. -/
def saveNotifications (storage : Storage) (l : List NotificationData) : Storage :=
  setItem storage "notifications" (encodeNotifications l)

/-- Function updateUnreadCount of NotificationContext.tsx: the number of
notifications whose read flag is false. -/
def updateUnreadCount (l : List NotificationData) : Nat :=
  (l.filter (fun n => !n.read)).length

/-- Function addNotification of NotificationContext.tsx; the fresh id
(Date.now().toString()) and creation date are explicit parameters. -/
def addNotification (s : NotificationState) (input : NotificationInput)
    (freshId now : String) : NotificationState :=
  let newNotification : NotificationData :=
    { id := freshId
      title := input.title
      message := input.message
      type := input.type
      read := false
      createdAt := now }
  let updatedNotifications := newNotification :: s.notifications
  { notifications := updatedNotifications
    unreadCount := updateUnreadCount updatedNotifications
    storage := saveNotifications s.storage updatedNotifications }

/-- Function markAsRead of NotificationContext.tsx. -/
def markAsRead (s : NotificationState) (id : String) : NotificationState :=
  let updatedNotifications := s.notifications.map (fun n =>
    if n.id == id then { n with read := true } else n)
  { notifications := updatedNotifications
    unreadCount := updateUnreadCount updatedNotifications
    storage := saveNotifications s.storage updatedNotifications }

/-- Function markAllAsRead of NotificationContext.tsx. -/
def markAllAsRead (s : NotificationState) : NotificationState :=
  let updatedNotifications := s.notifications.map (fun n => { n with read := true })
  { notifications := updatedNotifications
    unreadCount := 0
    storage := saveNotifications s.storage updatedNotifications }

/-- Function clearNotifications of NotificationContext.tsx. -/
def clearNotifications (s : NotificationState) : NotificationState :=
  { notifications := []
    unreadCount := 0
    storage := saveNotifications s.storage [] }

/-- Function loadNotifications of NotificationContext.tsx: reads the
stored list and recomputes the unread counter; when the key is absent or
unreadable the state keeps its initial value of no notifications. -/
def loadNotifications (storage : Storage) : List NotificationData × Nat :=
  match getItem storage "notifications" with
  | some v =>
      let l := (decodeNotifications v).getD []
      (l, updateUnreadCount l)
  | none => ([], 0)

/-! Basic facts about the storage model, the token generator and the
JSON round trip. -/

lemma getItem_setItem (st : Storage) (key : String) (v : JValue) :
    getItem (setItem st key v) key = some v := by
  simp [getItem, setItem]

lemma decodeProduct_encodeProduct (p : Product) :
    decodeProduct (encodeProduct p) = some p := rfl

lemma decodeCartItem_encodeCartItem (item : CartItem) :
    decodeCartItem (encodeCartItem item) = some item := rfl

lemma decodeNotification_encodeNotification (n : NotificationData) :
    decodeNotification (encodeNotification n) = some n := by
  rcases n with ⟨id, title, message, ty, readFlag, createdAt⟩
  cases ty <;> rfl

lemma decodeListWith_map (dec : JValue → Option α) (enc : α → JValue)
    (h : ∀ x, dec (enc x) = some x) (l : List α) :
    decodeListWith dec (l.map enc) = some l := by
  induction l with
  | nil => rfl
  | cons x xs ih => simp [decodeListWith, h, ih]

lemma occursIn_iff (needle hay : List Char) :
    occursIn needle hay = true ↔ needle <:+: hay := by
  induction hay with
  | nil => simp [occursIn]
  | cons c rest ih =>
      simp only [occursIn, Bool.or_eq_true, List.isPrefixOf_iff_prefix, ih,
        List.infix_cons_iff]

lemma mathCeilDiv_eq_ceil (a l : Nat) (hl : 1 ≤ l) :
    mathCeilDiv a l = ⌈(a : ℚ) / (l : ℚ)⌉₊ := by
  have hl0 : 0 < l := hl
  have hlq : (0 : ℚ) < (l : ℚ) := by exact_mod_cast hl0
  unfold mathCeilDiv
  refine le_antisymm ?_ ?_
  · rw [ceilDiv_le_iff_le_mul hl0]
    have h1 : (a : ℚ) / l ≤ (⌈(a : ℚ) / l⌉₊ : ℚ) := Nat.le_ceil _
    rw [div_le_iff₀ hlq] at h1
    have h2 : (a : ℚ) ≤ ((l * ⌈(a : ℚ) / l⌉₊ : ℕ) : ℚ) := by push_cast; linarith
    exact_mod_cast h2
  · rw [Nat.ceil_le, div_le_iff₀ hlq]
    have h3 : a ≤ l * (a ⌈/⌉ l) := by
      have := le_smul_ceilDiv (b := a) hl0
      simpa [smul_eq_mul] using this
    have h4 : (a : ℚ) ≤ ((l * (a ⌈/⌉ l) : ℕ) : ℚ) := by exact_mod_cast h3
    push_cast at h4
    linarith

/-! Concrete sample data used by witnesses and counterexamples. -/

/-- Concrete product used in witnesses and counterexamples. -/
def sampleProduct : Product :=
  { id := "p1", name := "Camera One", description := "A compact camera",
    price := 100, image := "img1", category := "Photo", inStock := true,
    createdAt := "2024-01-01", updatedAt := "2024-01-02" }

/-- Second concrete product. -/
def sampleProduct2 : Product :=
  { id := "p2", name := "Tripod", description := "A steady tripod",
    price := 40, image := "img2", category := "Accessories", inStock := false,
    createdAt := "2024-02-01", updatedAt := "2024-02-02" }

/-- Third concrete product. -/
def sampleProduct3 : Product :=
  { id := "p3", name := "Lens Cap", description := "A camera lens cap",
    price := 5, image := "img3", category := "Photo", inStock := true,
    createdAt := "2024-03-01", updatedAt := "2024-03-02" }

/-- Concrete product list. -/
def sampleProducts : List Product := [sampleProduct, sampleProduct2, sampleProduct3]

/-- C1: for every page p >= 1 and limit l >= 1, getProducts returns the
slice of the products array from (p-1)*l to (p-1)*l + l exclusive (stated
both as a take/drop slice and by pointwise indexing), total is the array
length, totalPages is the ceiling of total divided by l, and
getMyProductsPaginated paginates the stored list by the same rule. -/
theorem getProducts_paginates (products myProducts : List Product) (p l : Nat)
    (_hp : 1 ≤ p) (hl : 1 ≤ l) :
    (ProductService.getProducts products p l).data
        = (products.drop ((p - 1) * l)).take l
    ∧ (∀ i : Nat, i < l →
        ((ProductService.getProducts products p l).data)[i]?
          = products[(p - 1) * l + i]?)
    ∧ (ProductService.getProducts products p l).total = products.length
    ∧ (ProductService.getProducts products p l).totalPages
        = ⌈(products.length : ℚ) / (l : ℚ)⌉₊
    ∧ MyProductsService.getMyProductsPaginated myProducts p l
        = ProductService.getProducts myProducts p l := by
  refine ⟨?_, ?_, rfl, mathCeilDiv_eq_ceil _ _ hl, rfl⟩
  · simp [ProductService.getProducts, jsSlice]
  · intro i hi
    simp only [ProductService.getProducts, jsSlice, Nat.add_sub_cancel_left]
    rw [List.getElem?_take_of_lt hi, List.getElem?_drop]

/-- Witness for C1 at a concrete input: page 2, limit 2 over three
products yields the slice with the third product, total 3, totalPages 2. -/
theorem getProducts_paginates_witness :
    (1 ≤ 2 ∧ 1 ≤ 2)
    ∧ (ProductService.getProducts sampleProducts 2 2).data
        = (sampleProducts.drop 2).take 2
    ∧ (ProductService.getProducts sampleProducts 2 2).total = 3 := by
  have h := getProducts_paginates sampleProducts sampleProducts 2 2
    (by decide) (by decide)
  exact ⟨⟨by decide, by decide⟩, h.1, h.2.2.1⟩

/-- C2: searchProducts keeps exactly the products whose lowercased name,
description or category contains the lowercased query as a substring,
then slices the filtered list from (p-1)*l with length l; total is the
filtered length and totalPages its ceiling quotient by l. -/
theorem searchProducts_filters (products : List Product) (q : String) (p l : Nat)
    (_hp : 1 ≤ p) (hl : 1 ≤ l) :
    (∀ prod : Product,
        prod ∈ products.filter (matchesQuery q) ↔
          prod ∈ products ∧
            (q.toLower.toList <:+: prod.name.toLower.toList ∨
             q.toLower.toList <:+: prod.description.toLower.toList ∨
             q.toLower.toList <:+: prod.category.toLower.toList))
    ∧ (ProductService.searchProducts products q p l).data
        = ((products.filter (matchesQuery q)).drop ((p - 1) * l)).take l
    ∧ (ProductService.searchProducts products q p l).total
        = (products.filter (matchesQuery q)).length
    ∧ (ProductService.searchProducts products q p l).totalPages
        = ⌈((products.filter (matchesQuery q)).length : ℚ) / (l : ℚ)⌉₊ := by
  refine ⟨?_, ?_, rfl, mathCeilDiv_eq_ceil _ _ hl⟩
  · intro prod
    simp [matchesQuery, jsIncludes, occursIn_iff, or_assoc]
  · simp [ProductService.searchProducts, jsSlice]

/-- Witness for C2 at a concrete input: searching for cam keeps the two
camera-related products. -/
theorem searchProducts_filters_witness :
    (1 ≤ 1 ∧ 1 ≤ 10)
    ∧ (sampleProduct ∈ sampleProducts.filter (matchesQuery "Cam") ↔
        sampleProduct ∈ sampleProducts ∧
          ("Cam".toLower.toList <:+: sampleProduct.name.toLower.toList ∨
           "Cam".toLower.toList <:+: sampleProduct.description.toLower.toList ∨
           "Cam".toLower.toList <:+: sampleProduct.category.toLower.toList))
    ∧ (ProductService.searchProducts sampleProducts "Cam" 1 10).total
        = (sampleProducts.filter (matchesQuery "Cam")).length := by
  have h := searchProducts_filters sampleProducts "Cam" 1 10 (by decide) (by decide)
  exact ⟨⟨by decide, by decide⟩, h.1 sampleProduct, h.2.2.1⟩

/-! Storage agreement predicates for the three containers. -/

/-- Cart storage agreement: the value stored under the key cart is the
serialization of the in-memory cart. -/
def cartPersisted (s : CartState) : Prop :=
  getItem s.storage "cart" = some (encodeCartItems s.cartItems)

/-- Favorites storage agreement. -/
def favoritesPersisted (s : FavoritesState) : Prop :=
  getItem s.storage "favorites" = some (encodeProducts s.favorites)

/-- Notifications storage agreement. -/
def notificationsPersisted (s : NotificationState) : Prop :=
  getItem s.storage "notifications" = some (encodeNotifications s.notifications)

/-- C3: every mutating operation of the cart, favorites and notification
containers writes the resulting list back to storage, so that after the
mutation the value stored under the container's key is the serialization
of the new in-memory state. -/
theorem mutations_persist (c : CartState) (f : FavoritesState)
    (n : NotificationState) (prod : Product) (q : Int) (pid nid : String)
    (input : NotificationInput) (freshId now : String) :
    cartPersisted (addToCart c prod q)
    ∧ cartPersisted (removeFromCart c pid)
    ∧ cartPersisted (updateQuantity c pid q)
    ∧ cartPersisted (clearCart c)
    ∧ favoritesPersisted (addToFavorites f prod)
    ∧ favoritesPersisted (removeFromFavorites f pid)
    ∧ favoritesPersisted (toggleFavorite f prod)
    ∧ notificationsPersisted (addNotification n input freshId now)
    ∧ notificationsPersisted (markAsRead n nid)
    ∧ notificationsPersisted (markAllAsRead n)
    ∧ notificationsPersisted (clearNotifications n) := by
  refine ⟨?_, ?_, ?_, ?_, ?_, ?_, ?_, ?_, ?_, ?_, ?_⟩
  · exact getItem_setItem ..
  · exact getItem_setItem ..
  · unfold updateQuantity
    split
    · exact getItem_setItem ..
    · exact getItem_setItem ..
  · exact getItem_setItem ..
  · exact getItem_setItem ..
  · exact getItem_setItem ..
  · unfold toggleFavorite
    split
    · exact getItem_setItem ..
    · exact getItem_setItem ..
  · exact getItem_setItem ..
  · exact getItem_setItem ..
  · exact getItem_setItem ..
  · exact getItem_setItem ..

/-- Concrete cart state used by witnesses. -/
def sampleCartState : CartState :=
  { cartItems := [⟨sampleProduct, 1⟩], storage := Storage.empty }

/-- Concrete favorites state used by witnesses. -/
def sampleFavoritesState : FavoritesState :=
  { favorites := [sampleProduct], storage := Storage.empty }

/-- Concrete notification state used by witnesses. -/
def sampleNotificationState : NotificationState :=
  { notifications := [⟨"n1", "Hello", "World", .info, false, "2024-01-01"⟩]
    unreadCount := 1
    storage := Storage.empty }

/-- Witness for C3 at a concrete input: clearing the cart stores the
serialized empty list. -/
theorem mutations_persist_witness :
    getItem (clearCart sampleCartState).storage "cart" = some (encodeCartItems []) :=
  (mutations_persist sampleCartState sampleFavoritesState sampleNotificationState
    sampleProduct 1 "p1" "n1" ⟨"t", "m", .info⟩ "id1" "2024-01-01").2.2.2.1

/-- C6: saving a cart, favorites or notifications list with the
container's save function and loading it back with the container's load
function yields the saved state (for notifications, the saved list with
its recomputed unread counter). -/
theorem storage_roundtrip (st : Storage) (cart : List CartItem)
    (favs : List Product) (notifs : List NotificationData) :
    loadCart (saveCart st cart) = cart
    ∧ loadFavorites (saveFavorites st favs) = favs
    ∧ loadNotifications (saveNotifications st notifs)
        = (notifs, updateUnreadCount notifs) := by
  have hc : decodeCartItems (encodeCartItems cart) = some cart := by
    simpa [decodeCartItems, encodeCartItems] using
      decodeListWith_map decodeCartItem encodeCartItem
        decodeCartItem_encodeCartItem cart
  have hf : decodeProducts (encodeProducts favs) = some favs := by
    simpa [decodeProducts, encodeProducts] using
      decodeListWith_map decodeProduct encodeProduct
        decodeProduct_encodeProduct favs
  have hn : decodeNotifications (encodeNotifications notifs) = some notifs := by
    simpa [decodeNotifications, encodeNotifications] using
      decodeListWith_map decodeNotification encodeNotification
        decodeNotification_encodeNotification notifs
  refine ⟨?_, ?_, ?_⟩
  · simp [loadCart, saveCart, getItem_setItem, hc]
  · simp [loadFavorites, saveFavorites, getItem_setItem, hf]
  · simp [loadNotifications, saveNotifications, getItem_setItem, hn]

/-- Witness for C6 at a concrete input: a one-item cart survives the
save/load round trip. -/
theorem storage_roundtrip_witness :
    loadCart (saveCart Storage.empty [⟨sampleProduct, 2⟩]) = [⟨sampleProduct, 2⟩] :=
  (storage_roundtrip Storage.empty [⟨sampleProduct, 2⟩] [] []).1

/-! Identifier uniqueness. -/

/-- Product ids occurring in a cart list. -/
def cartIds (l : List CartItem) : List String :=
  l.map (fun item => item.product.id)

/-- Ids occurring in a product list. -/
def productIds (l : List Product) : List String := l.map (fun p => p.id)

lemma cartItems_addToCart (s : CartState) (prod : Product) (q : Int) :
    (addToCart s prod q).cartItems =
      if s.cartItems.any (fun item => item.product.id == prod.id) then
        bumpQuantityAtFirst prod.id q s.cartItems
      else s.cartItems ++ [⟨prod, q⟩] := rfl

lemma cartIds_bump (pid : String) (q : Int) (l : List CartItem) :
    cartIds (bumpQuantityAtFirst pid q l) = cartIds l := by
  induction l with
  | nil => rfl
  | cons item rest ih =>
      unfold bumpQuantityAtFirst
      split
      · simp [cartIds]
      · simp only [cartIds, List.map_cons] at ih ⊢
        rw [ih]

lemma cartIds_map_eq (g : CartItem → CartItem)
    (hg : ∀ item, (g item).product.id = item.product.id) (l : List CartItem) :
    cartIds (l.map g) = cartIds l := by
  unfold cartIds
  rw [List.map_map]
  exact List.map_congr_left (fun item _ => hg item)

lemma nodup_append_singleton {α : Type} (l : List α) (x : α)
    (hl : l.Nodup) (hx : x ∉ l) : (l ++ [x]).Nodup := by
  have h : (x :: (l ++ [])).Nodup := by
    simpa using List.nodup_cons.mpr ⟨hx, hl⟩
  exact List.nodup_middle.mpr h

/-- C4, amended: every cart and favorites operation preserves
distinctness of the identifiers in its list, except addToFavorites,
which appends unconditionally and preserves distinctness exactly under
the precondition that the product's id is not yet present (which is how
toggleFavorite invokes it); addProduct preserves it provided the
generated uuid is fresh. -/
theorem id_uniqueness_preserved (c : CartState) (f : FavoritesState)
    (products : List Product) (prod : Product) (pid : String) (q : Int)
    (inp : ProductInput) (freshId now : String)
    (hc : (cartIds c.cartItems).Nodup) (hf : (productIds f.favorites).Nodup)
    (hp : (productIds products).Nodup) :
    (cartIds (addToCart c prod q).cartItems).Nodup
    ∧ (cartIds (removeFromCart c pid).cartItems).Nodup
    ∧ (cartIds (updateQuantity c pid q).cartItems).Nodup
    ∧ (cartIds (clearCart c).cartItems).Nodup
    ∧ (productIds (toggleFavorite f prod).favorites).Nodup
    ∧ (productIds (removeFromFavorites f pid).favorites).Nodup
    ∧ (prod.id ∉ productIds f.favorites →
        (productIds (addToFavorites f prod).favorites).Nodup)
    ∧ (freshId ∉ productIds products →
        (productIds (ProductService.addProduct products inp freshId now).2).Nodup) := by
  have hremC : ∀ s : String, (cartIds (removeFromCart c s).cartItems).Nodup := by
    intro s
    have hsub : List.Sublist
        (cartIds (c.cartItems.filter (fun item => item.product.id != s)))
        (cartIds c.cartItems) := (List.filter_sublist _).map _
    exact List.Nodup.sublist hsub hc
  have hremF : ∀ s : String, (productIds (removeFromFavorites f s).favorites).Nodup := by
    intro s
    have hsub : List.Sublist
        (productIds (f.favorites.filter (fun item => item.id != s)))
        (productIds f.favorites) := (List.filter_sublist _).map _
    exact List.Nodup.sublist hsub hf
  have haddF : prod.id ∉ productIds f.favorites →
      (productIds (addToFavorites f prod).favorites).Nodup := by
    intro hnot
    show (productIds (f.favorites ++ [prod])).Nodup
    have : productIds (f.favorites ++ [prod]) = productIds f.favorites ++ [prod.id] := by
      simp [productIds]
    rw [this]
    exact nodup_append_singleton _ _ hf hnot
  refine ⟨?_, hremC pid, ?_, ?_, ?_, hremF pid, haddF, ?_⟩
  · rw [cartItems_addToCart]
    split
    · rw [cartIds_bump]; exact hc
    · rename_i hany
      have hnot : prod.id ∉ cartIds c.cartItems := by
        intro hmem
        apply hany
        simp only [cartIds, List.mem_map] at hmem
        obtain ⟨item, hitem, hid⟩ := hmem
        exact List.any_eq_true.mpr ⟨item, hitem, by simp [hid]⟩
      have : cartIds (c.cartItems ++ [⟨prod, q⟩]) = cartIds c.cartItems ++ [prod.id] := by
        simp [cartIds]
      rw [this]
      exact nodup_append_singleton _ _ hc hnot
  · unfold updateQuantity
    split
    · exact hremC pid
    · show (cartIds (c.cartItems.map _)).Nodup
      rw [cartIds_map_eq]
      · exact hc
      · intro item
        split <;> rfl
  · simp [cartIds, clearCart]
  · unfold toggleFavorite
    split
    · exact hremF prod.id
    · rename_i hfav
      apply haddF
      intro hmem
      apply hfav
      simp only [productIds, List.mem_map] at hmem
      obtain ⟨pp, hpp, hid⟩ := hmem
      unfold isFavorite
      exact List.any_eq_true.mpr ⟨pp, hpp, by simp [hid]⟩
  · intro hfresh
    show (productIds (_ :: products)).Nodup
    simp only [productIds, List.map_cons]
    exact List.nodup_cons.mpr ⟨hfresh, hp⟩

/-- Witness for the amended C4 at a concrete input: adding a new product
to a one-item cart with distinct ids keeps the ids distinct. -/
theorem id_uniqueness_preserved_witness :
    (cartIds (addToCart sampleCartState sampleProduct2 1).cartItems).Nodup := by
  have h := id_uniqueness_preserved sampleCartState sampleFavoritesState
    sampleProducts sampleProduct2 "p1" 1 ⟨"N", "D", 1, "I", "C", true⟩
    "p9" "2024-05-05" (by decide) (by decide) (by decide)
  exact h.1

/-- Counterexample to C4 as stated: the favorites list containing only
sampleProduct has distinct ids, yet addToFavorites of that same product
appends it unconditionally and the resulting list repeats the id p1. -/
theorem addToFavorites_duplicates_id :
    (productIds sampleFavoritesState.favorites).Nodup
    ∧ ¬ (productIds (addToFavorites sampleFavoritesState sampleProduct).favorites).Nodup := by
  constructor
  · decide
  · decide

/-! Shape of the generated tokens. -/

lemma alphanumericAlphabet_isAlphanum :
    ∀ c ∈ alphanumericAlphabet, c.isAlphanum = true := by decide

lemma fakerAlphanumeric_length (seed count : Nat) :
    (fakerAlphanumeric seed count).length = count := by
  simp [fakerAlphanumeric, String.length]

lemma fakerAlphanumeric_isAlphanum (seed count : Nat) :
    ∀ c ∈ (fakerAlphanumeric seed count).toList, c.isAlphanum = true := by
  intro c hc
  simp only [fakerAlphanumeric, String.toList] at hc
  obtain ⟨i, _, rfl⟩ := List.mem_map.mp hc
  have hlt : (seed + i) % 62 < alphanumericAlphabet.length := by
    have hlen : alphanumericAlphabet.length = 62 := by decide
    rw [hlen]
    exact Nat.mod_lt _ (by norm_num)
  rw [List.getD_eq_getElem?_getD, List.getElem?_eq_getElem hlt, Option.getD_some]
  exact alphanumericAlphabet_isAlphanum _ (List.getElem_mem hlt)

/-- Concrete user used by witnesses. -/
def sampleUser : User :=
  { id := "u1", email := "ana@example.com", name := "Ana",
    phone := some "123", profileImage := none,
    createdAt := "2024-01-01", updatedAt := "2024-01-02" }

/-- C5: login never fails: for every email and password it returns a
user whose email is the given email together with a 64-character
alphanumeric token; when no user with that email exists a new one is
appended to the list, otherwise the existing user is returned and the
list is unchanged. -/
theorem login_never_fails (users : List User) (email password : String)
    (fresh : FreshLoginData) (seed : Nat) :
    (AuthService.login users email password fresh seed).1.1.email = email
    ∧ (AuthService.login users email password fresh seed).1.2.length = 64
    ∧ (∀ c ∈ (AuthService.login users email password fresh seed).1.2.toList,
        c.isAlphanum = true)
    ∧ ((∀ u ∈ users, u.email ≠ email) →
        (AuthService.login users email password fresh seed).2
          = users ++ [(AuthService.login users email password fresh seed).1.1])
    ∧ ((∃ u ∈ users, u.email = email) →
        (AuthService.login users email password fresh seed).1.1 ∈ users
        ∧ (AuthService.login users email password fresh seed).2 = users) := by
  cases hfind : users.find? (fun u => u.email == email) with
  | some user =>
      have hmem : user ∈ users := List.mem_of_find?_eq_some hfind
      have hemail : user.email = email := by simpa using List.find?_some hfind
      simp only [AuthService.login, hfind]
      exact ⟨hemail, fakerAlphanumeric_length seed 64,
        fakerAlphanumeric_isAlphanum seed 64,
        fun hnone => absurd hemail (hnone user hmem),
        fun _ => ⟨hmem, trivial⟩⟩
  | none =>
      have hnone := List.find?_eq_none.mp hfind
      simp only [AuthService.login, hfind]
      refine ⟨trivial, fakerAlphanumeric_length seed 64,
        fakerAlphanumeric_isAlphanum seed 64, fun _ => trivial, ?_⟩
      rintro ⟨u, hu, he⟩
      exact absurd (by simp [he]) (hnone u hu)

/-- Witness for C5 at a concrete input: logging in with an email already
in the list returns that email and leaves the list unchanged. -/
theorem login_never_fails_witness :
    (AuthService.login [sampleUser] "ana@example.com" "pw"
        ⟨"u2", "Bob", "555", "img", "2024-06-01"⟩ 0).1.1.email = "ana@example.com"
    ∧ (AuthService.login [sampleUser] "ana@example.com" "pw"
        ⟨"u2", "Bob", "555", "img", "2024-06-01"⟩ 0).2 = [sampleUser] := by
  have h := login_never_fails [sampleUser] "ana@example.com" "pw"
    ⟨"u2", "Bob", "555", "img", "2024-06-01"⟩ 0
  exact ⟨h.1, (h.2.2.2.2 ⟨sampleUser, by simp, rfl⟩).2⟩

/-- C10: register raises an error exactly when a user with the email
already exists, leaving the users list unchanged in that case; otherwise
it appends exactly one new user with the given name and email and
returns it with a 64-character token. -/
theorem register_spec (users : List User) (userData : RegisterData)
    (fresh : FreshRegisterData) (seed : Nat) :
    ((∃ u ∈ users, u.email = userData.email) →
        (AuthService.register users userData fresh seed).1
            = Except.error "Email já cadastrado"
        ∧ (AuthService.register users userData fresh seed).2 = users)
    ∧ ((∀ u ∈ users, u.email ≠ userData.email) →
        ∃ newUser token,
          (AuthService.register users userData fresh seed).1
              = Except.ok (newUser, token)
          ∧ (AuthService.register users userData fresh seed).2
              = users ++ [newUser]
          ∧ newUser.name = userData.name ∧ newUser.email = userData.email
          ∧ token.length = 64) := by
  cases hfind : users.find? (fun u => u.email == userData.email) with
  | some user =>
      simp only [AuthService.register, hfind]
      refine ⟨fun _ => ⟨trivial, trivial⟩, ?_⟩
      intro hnone
      have hmem := List.mem_of_find?_eq_some hfind
      have hemail : user.email = userData.email := by
        simpa using List.find?_some hfind
      exact absurd hemail (hnone user hmem)
  | none =>
      have hnone := List.find?_eq_none.mp hfind
      simp only [AuthService.register, hfind]
      refine ⟨?_, ?_⟩
      · rintro ⟨u, hu, he⟩
        exact absurd (by simp [he]) (hnone u hu)
      · intro _
        exact ⟨_, _, rfl, rfl, rfl, rfl, fakerAlphanumeric_length seed 64⟩

/-- Witness for C10 at a concrete input: registering with an email
already in the list leaves the users list unchanged. -/
theorem register_spec_witness :
    (AuthService.register [sampleUser] ⟨"Ana Second", "ana@example.com", "pw"⟩
        ⟨"u3", "777", "2024-08-01"⟩ 5).2 = [sampleUser] := by
  have h := register_spec [sampleUser] ⟨"Ana Second", "ana@example.com", "pw"⟩
    ⟨"u3", "777", "2024-08-01"⟩ 5
  exact (h.1 ⟨sampleUser, by simp, rfl⟩).2

lemma setUpdatedAtFirst_decomp (email now : String) (users : List User)
    (h : ∃ u ∈ users, u.email = email) :
    ∃ pre u suf, users = pre ++ u :: suf ∧ (∀ v ∈ pre, v.email ≠ email)
      ∧ u.email = email
      ∧ setUpdatedAtFirst email now users
          = pre ++ { u with updatedAt := now } :: suf := by
  induction users with
  | nil =>
      obtain ⟨u, hu, _⟩ := h
      exact absurd hu (List.not_mem_nil u)
  | cons v rest ih =>
      by_cases hv : v.email = email
      · exact ⟨[], v, rest, rfl, by simp, hv, by simp [setUpdatedAtFirst, hv]⟩
      · obtain ⟨u, hu, hue⟩ := h
        have hu' : u ∈ rest := by
          rcases List.mem_cons.mp hu with h1 | h1
          · exact absurd (h1 ▸ hue) hv
          · exact h1
        obtain ⟨pre, u', suf, heq, hpre, hue', hset⟩ := ih ⟨u, hu', hue⟩
        refine ⟨v :: pre, u', suf, by simp [heq], ?_, hue', ?_⟩
        · intro w hw
          rcases List.mem_cons.mp hw with h1 | h1
          · exact h1 ▸ hv
          · exact hpre w h1
        · simp [setUpdatedAtFirst, hv, hset]

/-- C7: resetPassword returns true exactly when a user with the email
exists, independently of the OTP and new password; on success only the
first matched user changes and only in its updatedAt field, on failure
the users list is unchanged. -/
theorem resetPassword_spec (users : List User)
    (email otp otp2 newPw newPw2 now : String) :
    ((AuthService.resetPassword users email otp newPw now).1 = true ↔
        ∃ u ∈ users, u.email = email)
    ∧ AuthService.resetPassword users email otp newPw now
        = AuthService.resetPassword users email otp2 newPw2 now
    ∧ ((AuthService.resetPassword users email otp newPw now).1 = false →
        (AuthService.resetPassword users email otp newPw now).2 = users)
    ∧ ((AuthService.resetPassword users email otp newPw now).1 = true →
        ∃ pre u suf, users = pre ++ u :: suf
          ∧ (∀ v ∈ pre, v.email ≠ email) ∧ u.email = email
          ∧ (AuthService.resetPassword users email otp newPw now).2
              = pre ++ { u with updatedAt := now } :: suf) := by
  cases hfind : users.find? (fun u => u.email == email) with
  | some user =>
      have hmem := List.mem_of_find?_eq_some hfind
      have hemail : user.email = email := by simpa using List.find?_some hfind
      simp only [AuthService.resetPassword, hfind]
      refine ⟨⟨fun _ => ⟨user, hmem, hemail⟩, fun _ => trivial⟩, trivial, by simp, ?_⟩
      intro _
      exact setUpdatedAtFirst_decomp email now users ⟨user, hmem, hemail⟩
  | none =>
      have hnone := List.find?_eq_none.mp hfind
      simp only [AuthService.resetPassword, hfind]
      refine ⟨⟨fun hfalse => absurd hfalse (by simp), ?_⟩, trivial,
        fun _ => trivial, fun htrue => absurd htrue (by simp)⟩
      rintro ⟨u, hu, he⟩
      exact absurd (by simp [he]) (hnone u hu)

/-- Witness for C7 at a concrete input: resetting the password of an
email present in the list returns true. -/
theorem resetPassword_spec_witness :
    (AuthService.resetPassword [sampleUser] "ana@example.com"
        "000000" "newpw" "t9").1 = true := by
  have h := resetPassword_spec [sampleUser] "ana@example.com"
    "000000" "111111" "newpw" "newpw2" "t9"
  exact h.1.mpr ⟨sampleUser, by simp, rfl⟩

/-- C8: updateQuantity with a non-positive quantity behaves exactly like
removeFromCart on that product id; with a positive quantity it sets the
matching item's quantity to the given value and leaves every other item
unchanged. -/
theorem updateQuantity_spec (s : CartState) (pid : String) (q : Int) :
    (q ≤ 0 → updateQuantity s pid q = removeFromCart s pid)
    ∧ (0 < q →
        (updateQuantity s pid q).cartItems
          = s.cartItems.map (fun item =>
              if item.product.id = pid then { item with quantity := q }
              else item)
        ∧ (∀ item ∈ s.cartItems, item.product.id ≠ pid →
            item ∈ (updateQuantity s pid q).cartItems)
        ∧ (∀ item ∈ (updateQuantity s pid q).cartItems,
            item.product.id = pid → item.quantity = q)) := by
  constructor
  · intro hq
    unfold updateQuantity
    rw [if_pos hq]
  · intro hq
    have hq' : ¬ q ≤ 0 := not_le.mpr hq
    have hitems : (updateQuantity s pid q).cartItems
        = s.cartItems.map (fun item =>
            if item.product.id == pid then { item with quantity := q }
            else item) := by
      unfold updateQuantity
      rw [if_neg hq']
    refine ⟨?_, ?_, ?_⟩
    · rw [hitems]
      apply List.map_congr_left
      intro item _
      by_cases h : item.product.id = pid
      · simp [h]
      · simp [h]
    · intro item hmem hne
      rw [hitems]
      refine List.mem_map.mpr ⟨item, hmem, ?_⟩
      simp [hne]
    · intro item hmem hid
      rw [hitems] at hmem
      obtain ⟨it, _, rfl⟩ := List.mem_map.mp hmem
      by_cases h : it.product.id == pid
      · simp [h]
      · exfalso
        simp [h] at hid
        exact absurd hid (by simpa using h)

/-- Witness for C8 at a concrete input: updating to quantity 0 equals
removing the product, and updating to 5 sets the quantity. -/
theorem updateQuantity_spec_witness :
    updateQuantity sampleCartState "p1" 0 = removeFromCart sampleCartState "p1"
    ∧ (updateQuantity sampleCartState "p1" 5).cartItems
        = sampleCartState.cartItems.map (fun item =>
            if item.product.id = "p1" then { item with quantity := 5 }
            else item) :=
  ⟨(updateQuantity_spec sampleCartState "p1" 0).1 (by decide),
   ((updateQuantity_spec sampleCartState "p1" 5).2 (by decide)).1⟩

/-- Unread-counter invariant of the notification container. -/
def notifInvariant (s : NotificationState) : Prop :=
  s.unreadCount = (s.notifications.filter (fun n => !n.read)).length

/-- C9: starting from a state where unreadCount counts the unread
notifications, every notification operation preserves that invariant;
markAllAsRead in particular leaves the counter at 0 with every
notification's read flag true. -/
theorem unreadCount_invariant (s : NotificationState) (input : NotificationInput)
    (freshId now id : String) (_h : notifInvariant s) :
    notifInvariant (addNotification s input freshId now)
    ∧ notifInvariant (markAsRead s id)
    ∧ notifInvariant (markAllAsRead s)
    ∧ (markAllAsRead s).unreadCount = 0
    ∧ (∀ n ∈ (markAllAsRead s).notifications, n.read = true)
    ∧ notifInvariant (clearNotifications s) := by
  refine ⟨rfl, rfl, ?_, rfl, ?_, rfl⟩
  · have hnil : ((markAllAsRead s).notifications).filter (fun n => !n.read) = [] := by
      apply List.filter_eq_nil_iff.mpr
      intro a ha
      simp only [markAllAsRead, List.mem_map] at ha
      obtain ⟨m, _, rfl⟩ := ha
      simp
    show (0 : Nat) = _
    rw [hnil]
    rfl
  · intro n hn
    simp only [markAllAsRead, List.mem_map] at hn
    obtain ⟨m, _, rfl⟩ := hn
    rfl

/-- Witness for C9 at a concrete input: a state with one unread
notification satisfies the invariant, and markAllAsRead zeroes the
counter while preserving it. -/
theorem unreadCount_invariant_witness :
    notifInvariant sampleNotificationState
    ∧ notifInvariant (markAllAsRead sampleNotificationState)
    ∧ (markAllAsRead sampleNotificationState).unreadCount = 0 := by
  have hinv : notifInvariant sampleNotificationState := rfl
  have h := unreadCount_invariant sampleNotificationState ⟨"t", "m", .info⟩
    "id9" "2024-07-01" "n1" hinv
  exact ⟨hinv, h.2.2.1, h.2.2.2.1⟩
